import Mathlib

/-!
# Singularity: SIF assembler, library references, squashfs open mode

A shallow embedding of

* `src/internal/pkg/library/library.go` (`NormalizeLibraryRef`, `SearchLibrary`),
* `src/src/pkg/build/assemblers/assembler_sif.go` (`createSIF`, `Assemble`, `changeOwner`),
* the squashfs access-mode policy exercised by `src/pkg/image/squashfs_test.go`.

Go strings are modelled by `String`; Go's `len` on a string counts bytes, which is
`String.utf8ByteSize`.  Calls that leave the process (file system, environment,
external tools, the sif library, the library client) take their results from a
`World` record and are recorded, in program order, in a trace of `Action`s.
-/

namespace Singularity

/-! ## Go standard library: strings -/

namespace strings

/-- Go `strings.HasPrefix`. -/
def HasPrefix (s pre : String) : Bool :=
  pre.data.isPrefixOf s.data

/-- Go `strings.TrimPrefix`: `s` without the leading `pre`, or `s` itself when `s` does not
start with `pre`. -/
def TrimPrefix (s pre : String) : String :=
  if HasPrefix s pre then String.mk (s.data.drop pre.data.length) else s

/-- Substring search on character lists: does `sub` occur in `s`? -/
def containsAt : List Char → List Char → Bool
  | [], sub => sub.isEmpty
  | c :: cs, sub => sub.isPrefixOf (c :: cs) || containsAt cs sub

/-- Go `strings.Contains`. -/
def Contains (s substr : String) : Bool :=
  containsAt s.data substr.data

/-- Number of non-overlapping occurrences of the non-empty `sep` in `s`, scanning left to
right (Go `strings.Count` for a non-empty separator). -/
def countSep (sep : List Char) : Nat → List Char → Nat
  | 0, _ => 0
  | _, [] => 0
  | fuel + 1, c :: cs =>
    if sep.isPrefixOf (c :: cs) then
      1 + countSep sep fuel ((c :: cs).drop sep.length)
    else countSep sep fuel cs

/-- Length of `strings.Split(s, sep)` for a non-empty `sep`: one more than the number of
separators. -/
def SplitLen (s sep : String) : Nat :=
  countSep sep.data (s.data.length + 1) s.data + 1

end strings

/-- Go builtin `len` on a string: the number of bytes. -/
def len (s : String) : Nat := s.utf8ByteSize

/-! ## `internal/pkg/library` -/

namespace library

/-- Constant `defaultTag`. -/
def defaultTag : String := "latest"

/-- Function `NormalizeLibraryRef` strips off a leading `library://`, if any, and appends
the default tag if the remainder holds no colon. -/
def NormalizeLibraryRef (libraryRef : String) : String :=
  let ir := strings.TrimPrefix libraryRef "library://"
  if !strings.Contains ir ":" then
    ir ++ ":" ++ defaultTag
  else
    ir

/-- One entity or collection of a search result; `LibraryURI` is the value its
`LibraryURI()` method returns. -/
structure Entry where
  LibraryURI : String
  deriving DecidableEq, Repr

/-- The fields of `client.Container` this package reads.  `ImageTags` is a Go map, given
here as its key/value pairs in iteration order; `TagList` is the value of the `TagList()`
method; `Images` is shown already formatted. -/
structure Container where
  LibraryURI : String
  ImageTags : List (String × String)
  TagList : String
  Images : List String
  Description : String
  DownloadCount : Int
  Stars : Int
  deriving DecidableEq, Repr

/-- Type `client.SearchResults`. -/
structure SearchResults where
  Entities : List Entry
  Collections : List Entry
  Containers : List Container
  deriving DecidableEq, Repr

/-- Type `containerInfo`. -/
structure containerInfo where
  Data : Container
  deriving DecidableEq, Repr

/-- An HTTP response: status code and the outcome of reading the whole body. -/
structure Response where
  StatusCode : Int
  Body : Except String String

/-- The network as seen by this package: `http.Get`, `json.Unmarshal` into a
`containerInfo`, and the client's `Search`. -/
structure Net where
  Get : String → Except String Response
  Unmarshal : String → Except String containerInfo
  Search : String → Except String SearchResults

/-- An argument of a formatted print. -/
inductive Arg
  | str (s : String)
  | strs (l : List String)
  | int (n : Int)
  deriving DecidableEq, Repr

/-- What `SearchLibrary` does that is visible from outside, in program order. -/
inductive Event
  | Debugf (format : String) (args : List Arg)
  | Verbosef (format : String) (args : List Arg)
  | HttpGet (url : String)
  | Search (value : String)
  | Printf (format : String) (args : List Arg)
  deriving DecidableEq, Repr

/-- Function `getContainerInfo`: fetch the image information of `image`. -/
def getContainerInfo (n : Net) (image : String) : List Event × Except String containerInfo :=
  let url := "https://library.sylabs.io" ++ "/v1/containers/" ++ image
  match n.Get url with
  | .error err => ([.HttpGet url], .error err)
  | .ok response =>
    if response.StatusCode ≠ 200 then
      ([.HttpGet url], .error "invalid image")
    else
      match response.Body with
      | .error err => ([.HttpGet url], .error err)
      | .ok out =>
        match n.Unmarshal out with
        | .error err => ([.HttpGet url], .error err)
        | .ok info => ([.HttpGet url], .ok info)

/-- Function `getImageTags`: the keys of the tag map. -/
def getImageTags (image : List (String × String)) : List String :=
  image.map Prod.fst

/-- The printing of one container of a search result. -/
def printContainer (con : Container) : List Event :=
  [.Printf "\t%s\n" [.str con.LibraryURI]] ++
  (if con.ImageTags.length ≠ 0 then
    [.Printf "\t\tTags: %s\n" [.str con.TagList]]
  else if con.Images.length > 0 then
    [.Printf "\t\tImage ID: %s (no tag)\n" [.strs con.Images]]
  else []) ++
  [.Printf "\n" []]

/-- The printing of the entities (or collections) of a search result. -/
def printEntries (found notFound : String) (value : String) (es : List Entry) : List Event :=
  if es.length > 0 then
    [.Printf found [.int es.length, .str value]] ++
    es.map (fun ent => .Printf "\t%s\n" [.str ent.LibraryURI]) ++
    [.Printf "\n" []]
  else
    [.Printf notFound [.str value]]

/-- The message of the query-length check of `SearchLibrary`. -/
def badQuery (value : String) : String :=
  "bad query \x27" ++ value ++ "\x27. You must search for at least 3 characters"

/-- The body of `SearchLibrary` after its query-length check: describe the container when
`value` looks like a container path and its information can be fetched, search otherwise. -/
def describeOrSearch (n : Net) (value : String) : List Event × Option String :=
  let lookup : List Event × Bool :=
    if strings.SplitLen value "/" > 2 then
      let dbg := Event.Debugf "Attempting to get image info for: %s" [.str value]
      match getContainerInfo n value with
      | (evs, .ok cinfo) =>
        (dbg :: evs ++
          [.Printf "Image:           %s\n" [.str ("library://" ++ value)],
           .Printf "Tags:            %s\n" [.strs (getImageTags cinfo.Data.ImageTags)],
           .Printf "Description:     %s\n" [.str cinfo.Data.Description],
           .Printf "Total downloads: %d\n" [.int cinfo.Data.DownloadCount],
           .Printf "Stars:           %d\n" [.int cinfo.Data.Stars]], true)
      | (evs, .error err) =>
        (dbg :: evs ++ [.Verbosef "Failed to search container info: %s" [.str err]], false)
    else ([], false)
  if lookup.2 then
    (lookup.1, none)
  else
    match n.Search value with
    | .error err => (lookup.1 ++ [.Search value], some err)
    | .ok results =>
      (lookup.1 ++ [.Search value] ++
        printEntries "Found %d users for \x27%s\x27\n" "No users found for \x27%s\x27\n\n"
          value results.Entities ++
        printEntries "Found %d collections for \x27%s\x27\n"
          "No collections found for \x27%s\x27\n\n" value results.Collections ++
        (if results.Containers.length > 0 then
          [.Printf "Found %d containers for \x27%s\x27\n"
            [.int results.Containers.length, .str value]] ++
          (results.Containers.map printContainer).flatten ++
          [.Printf "\n" []]
        else
          [.Printf "No containers found for \x27%s\x27\n\n" [.str value]]),
        none)

/-- Function `SearchLibrary` searches the library and prints the results.  The result is the
trace of events and the returned error (`none` for `nil`). -/
def SearchLibrary (n : Net) (value : String) : List Event × Option String :=
  if len value < 3 then
    ([], some (badQuery value))
  else
    describeOrSearch n value

end library

/-! ## Go standard library: strconv -/

namespace strconv

/-- Largest magnitude of a negative 64-bit `int`. -/
def cutoff : Nat := 2 ^ 63

/-- The value of a string of decimal digits. -/
def digitsValue (ds : List Char) : Nat :=
  ds.foldl (fun acc c => acc * 10 + (c.toNat - 48)) 0

/-- Go `strconv.Atoi` on a platform whose `int` has 64 bits: an optional sign followed by
one or more decimal digits, with a value that fits in an `int`.  The error carries the
reason only. -/
def Atoi (s : String) : Except String Int :=
  let signed : Bool × List Char :=
    match s.data with
    | '-' :: ds => (true, ds)
    | '+' :: ds => (false, ds)
    | ds => (false, ds)
  let neg := signed.1
  let ds := signed.2
  if ds.isEmpty || !ds.all Char.isDigit then
    .error "invalid syntax"
  else
    let un := digitsValue ds
    if !neg && un ≥ cutoff then .error "value out of range"
    else if neg && un > cutoff then .error "value out of range"
    else .ok (if neg then -(un : Int) else (un : Int))

end strconv

/-! ## The sif library, as used by the assembler -/

/-- A byte slice. -/
abbrev Bytes := List UInt8

namespace sif

/-- Data types of a descriptor. -/
inductive Datatype
  | DataDeffile
  | DataEnvVar
  | DataLabels
  | DataPartition
  | DataSignature
  | DataGenericJSON
  deriving DecidableEq, Repr

/-- File system kinds of a partition. -/
inductive Fstype
  | FsSquash
  | FsExt3
  | FsImmuObj
  | FsRaw
  deriving DecidableEq, Repr

/-- Roles of a partition. -/
inductive Parttype
  | PartSystem
  | PartPrimSys
  | PartData
  | PartOverlay
  deriving DecidableEq, Repr

/-- An open file, identified by the name it was opened under. -/
structure File where
  name : String
  deriving DecidableEq, Repr

/-- Type `sif.DescriptorInput`: the fields the assembler sets; each defaults to its Go zero
value. -/
structure DescriptorInput where
  Datatype : Datatype
  Groupid : Nat
  Link : Nat
  Size : Int := 0
  Fname : String := ""
  Fp : Option File := none
  Data : Bytes := []
  Extra : Bytes := []
  deriving DecidableEq, Repr

/-- Type `sif.CreateInfo`. -/
structure CreateInfo where
  Pathname : String
  Launchstr : String
  Sifversion : String
  ID : Nat
  InputDescr : List DescriptorInput := []
  deriving DecidableEq, Repr

/-- The parts of the sif library the assembler depends on: its constants, the architecture
table `GetSIFArch`, the serialisation `SetPartExtra` of partition metadata (the bytes it
writes to `Extra`, or an error), and the container writer `CreateContainer` (its error, or
`none`). -/
structure Lib where
  HdrLaunch : String
  HdrVersion : String
  DescrDefaultGroup : Nat
  DescrUnusedLink : Nat
  GetSIFArch : String → String
  SetPartExtra : Fstype → Parttype → String → Except String Bytes
  CreateContainer : CreateInfo → Option String

end sif

/-! ## `src/pkg/build/assemblers` -/

namespace assemblers

/-- Everything outside the process that the assembler consults.  A Go `error` result is an
`Option String` (`none` for `nil`) or the `error` side of an `Except`. -/
structure World where
  /-- Constant `runtime.GOARCH`. -/
  GOARCH : String
  /-- Result of `syscall.Getuid`. -/
  Getuid : Int
  /-- Result of `os.Getenv`; the empty string for an unset variable. -/
  Getenv : String → String
  /-- Result of `uuid.NewV4`. -/
  NewV4 : Nat
  /-- Result of `exec.LookPath`. -/
  LookPath : String → Except String String
  /-- Result of `ioutil.TempFile dir pattern`: the name of the created file. -/
  TempFile : String → String → Except String String
  /-- Result of running a command: its error. -/
  Run : String → List String → Option String
  /-- Result of `os.Open`: its error. -/
  Open : String → Option String
  /-- Result of `Stat` on the opened file: its size. -/
  Stat : String → Except String Int
  /-- The sif library. -/
  sif : sif.Lib

/-- The parts of `types.Bundle` the assembler reads: the bundle directory, the value of
`Rootfs()`, and the text `parser.WriteDefinitionFile` writes for the recipe. -/
structure Bundle where
  Path : String
  Rootfs : String
  RecipeText : Bytes

/-- What the assembler does that is visible from outside, in program order. -/
inductive Action
  | Infof (format : String) (args : List String)
  | Errorf (format : String) (args : List String)
  | LookPath (file : String)
  | TempFile (dir pattern : String)
  | Close (name : String)
  | Remove (name : String)
  | RemoveAll (path : String)
  | Run (name : String) (args : List String)
  | Open (name : String)
  | Stat (name : String)
  | CreateContainer (cinfo : sif.CreateInfo)
  | Chown (name : String) (uid gid : Int)
  deriving DecidableEq, Repr

/-- Can this action remove, create or modify a file?  Logging, looking a tool up, and
opening, inspecting and closing a file for reading cannot. -/
def Action.mutates : Action → Bool
  | .Infof _ _ => false
  | .Errorf _ _ => false
  | .LookPath _ => false
  | .Close _ => false
  | .Open _ => false
  | .Stat _ => false
  | .TempFile _ _ => true
  | .Remove _ => true
  | .RemoveAll _ => true
  | .Run _ _ => true
  | .CreateContainer _ => true
  | .Chown _ _ _ => true

/-- How a call ends: by returning its error result (`none` for `nil`), or by a run-time
panic. -/
inductive Outcome
  | returned (err : Option String)
  | panicked (reason : String)
  deriving DecidableEq, Repr

/-- The regular expression `(singularity)` matches exactly the strings that contain
`singularity`. -/
def MatchString (s : String) : Bool :=
  strings.Contains s "singularity"

/-- Function `changeOwner`: checks `SUDO_COMMAND` for the singularity binary and reads the
ids of the calling user.  Returns what it logs and `(uid, gid, chown)`. -/
def changeOwner (w : World) : List Action × (Int × Int × Bool) :=
  let sudoCmd := w.Getenv "SUDO_COMMAND"
  if MatchString sudoCmd then
    if w.Getuid = 0 && w.Getenv "SUDO_USER" ≠ "root" then
      let _uid := w.Getenv "SUDO_UID"
      let _gid := w.Getenv "SUDO_GID"
      if _uid = "" || _gid = "" then
        ([.Errorf "Env vars SUDO_UID or SUDO_GID are not set, won\x27t call chown over built SIF"
            []], (0, 0, false))
      else
        match strconv.Atoi _uid with
        | .error err => ([.Errorf "Error while calling strconv: %v" [err]], (0, 0, false))
        | .ok uid =>
          match strconv.Atoi _gid with
          | .error err => ([.Errorf "Error while calling strconv : %v" [err]], (0, 0, false))
          | .ok gid => ([], (uid, gid, true))
    else ([], (0, 0, false))
  else ([], (0, 0, false))

/-- The definition-file descriptor `createSIF` builds. -/
def definput (w : World) (definition : Bytes) : sif.DescriptorInput :=
  let d : sif.DescriptorInput :=
    { Datatype := .DataDeffile
      Groupid := w.sif.DescrDefaultGroup
      Link := w.sif.DescrUnusedLink
      Data := definition }
  { d with Size := (definition.length : Int) }

/-- Function `createSIF`: the trace of actions and the returned error. -/
def createSIF (w : World) (path : String) (definition : Bytes) (squashfile : String) :
    List Action × Option String :=
  let cinfo : sif.CreateInfo :=
    { Pathname := path
      Launchstr := w.sif.HdrLaunch
      Sifversion := w.sif.HdrVersion
      ID := w.NewV4 }
  let cinfo := { cinfo with InputDescr := cinfo.InputDescr ++ [definput w definition] }
  let parinput : sif.DescriptorInput :=
    { Datatype := .DataPartition
      Groupid := w.sif.DescrDefaultGroup
      Link := w.sif.DescrUnusedLink
      Fname := squashfile }
  match w.Open parinput.Fname with
  | some err => ([.Open parinput.Fname], some ("while opening partition file: " ++ err))
  | none =>
    let parinput := { parinput with Fp := some ⟨parinput.Fname⟩ }
    -- `defer parinput.Fp.Close()`: the last action on every path below
    match w.Stat parinput.Fname with
    | .error err =>
      ([.Open parinput.Fname, .Stat parinput.Fname, .Close parinput.Fname],
        some ("while calling start on partition file: " ++ err))
    | .ok size =>
      let parinput := { parinput with Size := size }
      match w.sif.SetPartExtra .FsSquash .PartPrimSys (w.sif.GetSIFArch w.GOARCH) with
      | .error err =>
        ([.Open parinput.Fname, .Stat parinput.Fname, .Close parinput.Fname], some err)
      | .ok extra =>
        let parinput := { parinput with Extra := extra }
        let cinfo := { cinfo with InputDescr := cinfo.InputDescr ++ [parinput] }
        match w.sif.CreateContainer cinfo with
        | some err =>
          ([.Open parinput.Fname, .Stat parinput.Fname, .RemoveAll path,
            .CreateContainer cinfo, .Close parinput.Fname],
            some ("while creating container: " ++ err))
        | none =>
          let owner := changeOwner w
          ([.Open parinput.Fname, .Stat parinput.Fname, .RemoveAll path,
            .CreateContainer cinfo] ++ owner.1 ++
            (if owner.2.2.2 then [.Chown path owner.2.1 owner.2.2.1] else []) ++
            [.Close parinput.Fname], none)

/-- The arguments `Assemble` passes to `mksquashfs`. -/
def mksquashfsArgs (w : World) (b : Bundle) (squashfsPath : String) : List String :=
  let args := [b.Rootfs, squashfsPath, "-noappend"]
  if w.Getuid ≠ 0 then args ++ ["-all-root"] else args

/-- Method `SIFAssembler.Assemble`: creates a SIF image from a bundle.  The deferred calls
(`os.RemoveAll(b.Path)`, and `os.Remove(squashfsPath)` once registered) run last, most
recent first, also when the body panics. -/
def Assemble (w : World) (b : Bundle) (path : String) : List Action × Outcome :=
  let start : List Action := [.Infof "Creating SIF file..." []]
  let «def» := b.RecipeText
  match w.LookPath "mksquashfs" with
  | .error err =>
    (start ++ [.LookPath "mksquashfs",
      .Errorf "mksquashfs is not installed on this system" [], .RemoveAll b.Path],
      .returned (some err))
  | .ok mksquashfs =>
    match w.TempFile b.Path "squashfs-" with
    | .error _ =>
      -- `f` is nil and `f.Name()` dereferences it
      (start ++ [.LookPath "mksquashfs", .TempFile b.Path "squashfs-", .RemoveAll b.Path],
        .panicked "invalid memory address or nil pointer dereference")
    | .ok fname =>
      let squashfsPath := fname ++ ".img"
      let args := mksquashfsArgs w b squashfsPath
      let packing : List Action :=
        start ++ [.LookPath "mksquashfs", .TempFile b.Path "squashfs-", .Close fname,
          .Remove fname, .Remove squashfsPath, .Run mksquashfs args]
      match w.Run mksquashfs args with
      | some err =>
        (packing ++ [.Remove squashfsPath, .RemoveAll b.Path], .returned (some err))
      | none =>
        let created := createSIF w path «def» squashfsPath
        (packing ++ created.1 ++ [.Remove squashfsPath, .RemoveAll b.Path],
          .returned created.2)

end assemblers

/-! ## `pkg/image`: squashfs access mode -/

namespace image

/-- Constant `os.O_RDONLY`. -/
def O_RDONLY : Int := 0

/-- Constant `os.O_RDWR`. -/
def O_RDWR : Int := 2

namespace squashfsFormat

/-- Modelled from the spec: method `squashfsFormat.openMode` of `pkg/image/squashfs.go`, of
which only the test is among the sources.  The access-mode policy for squashfs is "always
read-only, irrespective of whether the caller requested writable access". -/
def openMode (_writable : Bool) : Int :=
  O_RDONLY

end squashfsFormat

/-- Function `TestSFSOpenMode`: the message of the first failed check, if any. -/
def TestSFSOpenMode : Option String :=
  if squashfsFormat.openMode true ≠ O_RDONLY then
    some "openMode(true) returned the wrong value"
  else if squashfsFormat.openMode false ≠ O_RDONLY then
    some "openMode(false) returned the wrong value"
  else none

end image

/-! ## Concrete inputs -/

namespace library

/-- A network on which the container lookup fails and a search finds nothing. -/
def emptyNet : Net where
  Get := fun _ => .error "no route to host"
  Unmarshal := fun _ => .error "unexpected end of JSON input"
  Search := fun _ => .ok { Entities := [], Collections := [], Containers := [] }

end library

namespace assemblers

/-- The containers the trace hands to the container writer, in order. -/
def containersCreated : List Action → List sif.CreateInfo
  | [] => []
  | .CreateContainer cinfo :: t => cinfo :: containersCreated t
  | _ :: t => containersCreated t

/-- The commands the trace runs, with their arguments, in order. -/
def commandsRun : List Action → List (String × List String)
  | [] => []
  | .Run name args :: t => (name, args) :: commandsRun t
  | _ :: t => commandsRun t

/-- The ownership changes of the trace, in order. -/
def ownersSet : List Action → List (String × Int × Int)
  | [] => []
  | .Chown name uid gid :: t => (name, uid, gid) :: ownersSet t
  | _ :: t => ownersSet t

/-- A sif library for the examples: two known architectures, a partition record of three
bytes, and a container writer that succeeds. -/
def sampleLib : sif.Lib where
  HdrLaunch := "#!/usr/bin/env run-singularity\n"
  HdrVersion := "01"
  DescrDefaultGroup := 0xf0000001
  DescrUnusedLink := 0
  GetSIFArch := fun goarch =>
    if goarch = "386" then "01" else if goarch = "amd64" then "02" else "00"
  SetPartExtra := fun fs part arch =>
    if arch = "00" then .error ("architecture not supported: " ++ arch)
    else .ok [if fs = .FsSquash then 1 else 0, if part = .PartPrimSys then 2 else 0,
      if arch = "02" then 2 else 1]
  CreateContainer := fun _ => none

/-- The environment `sudo` sets up for a build started by `user`. -/
def sudoEnv (user uid gid : String) (key : String) : String :=
  if key = "SUDO_COMMAND" then "/usr/local/bin/singularity build out.sif recipe.def"
  else if key = "SUDO_USER" then user
  else if key = "SUDO_UID" then uid
  else if key = "SUDO_GID" then gid
  else ""

/-- A host on which every step of a build started as `sudo singularity build` by the user
`alice` (1000:1000) succeeds. -/
def buildHost : World where
  GOARCH := "amd64"
  Getuid := 0
  Getenv := sudoEnv "alice" "1000" "1000"
  NewV4 := 42
  LookPath := fun _ => .ok "/usr/bin/mksquashfs"
  TempFile := fun dir pattern => .ok (dir ++ "/" ++ pattern ++ "123456")
  Run := fun _ _ => none
  Open := fun _ => none
  Stat := fun _ => .ok 4096
  sif := sampleLib

/-- The build host without `mksquashfs` on the search path. -/
def noToolHost : World :=
  { buildHost with LookPath := fun _ => .error "executable file not found in $PATH" }

/-- The build host with a bundle directory in which no file can be created. -/
def noTempHost : World :=
  { buildHost with TempFile := fun _ _ => .error "no such file or directory" }

/-- The build host with a `mksquashfs` that exits with status 1. -/
def failingToolHost : World :=
  { buildHost with Run := fun _ _ => some "exit status 1" }

/-- The build host with a partition file that cannot be opened. -/
def unreadableHost : World :=
  { buildHost with Open := fun _ => some "permission denied" }

/-- The build host with a partition file that cannot be inspected. -/
def unstatableHost : World :=
  { buildHost with Stat := fun _ => .error "input/output error" }

/-- The build host when the build is started as `sudo singularity build` by `root`. -/
def rootSudoHost : World :=
  { buildHost with Getenv := sudoEnv "root" "0" "0" }

/-- The build host when the build is started by the user 1000 without `sudo`. -/
def userHost : World :=
  { buildHost with Getuid := 1000, Getenv := fun _ => "" }

/-- A bundle staged under `/tmp/sbuild-1`, with a two-byte recipe text. -/
def sampleBundle : Bundle where
  Path := "/tmp/sbuild-1"
  Rootfs := "/tmp/sbuild-1/fs"
  RecipeText := [66, 10]

end assemblers

/-! ## Theorems: strings -/

namespace strings

theorem containsAt_iff (s sub : List Char) : containsAt s sub = true ↔ sub <:+: s := by
  induction s with
  | nil => simp [containsAt, List.infix_nil]
  | cons c cs ih =>
    simp only [containsAt, Bool.or_eq_true, ih, List.infix_cons_iff,
      List.isPrefixOf_iff_prefix]

theorem singleton_infix (c : Char) (l : List Char) : [c] <:+: l ↔ c ∈ l := by
  constructor
  · rintro ⟨a, b, h⟩
    rw [← h]
    simp
  · intro h
    obtain ⟨a, b, h⟩ := List.append_of_mem h
    exact ⟨a, b, by simp [h]⟩

theorem Contains_iff (s substr : String) :
    Contains s substr = true ↔ substr.data <:+: s.data :=
  containsAt_iff _ _

theorem Contains_colon (s : String) : Contains s ":" = true ↔ ':' ∈ s.data := by
  rw [Contains_iff]
  exact singleton_infix ':' s.data

theorem HasPrefix_iff (s pre : String) : HasPrefix s pre = true ↔ pre.data <+: s.data := by
  simp [HasPrefix]

theorem TrimPrefix_of_prefix (s pre : String) (h : pre.data <+: s.data) :
    s = pre ++ TrimPrefix s pre := by
  apply String.ext
  have hp : HasPrefix s pre = true := (HasPrefix_iff s pre).2 h
  simp only [TrimPrefix, hp, if_true, String.data_append]
  exact (List.prefix_iff_eq_append.1 h).symm

theorem TrimPrefix_of_not_prefix (s pre : String) (h : ¬ pre.data <+: s.data) :
    TrimPrefix s pre = s := by
  have hp : HasPrefix s pre = false := by
    rw [← Bool.not_eq_true, HasPrefix_iff]
    exact h
  simp [TrimPrefix, hp]

end strings

theorem utf8ByteSize_go_ge (cs : List Char) : cs.length ≤ String.utf8ByteSize.go cs := by
  induction cs with
  | nil => simp [String.utf8ByteSize.go]
  | cons c cs ih =>
    have := Char.utf8Size_pos c
    simp only [String.utf8ByteSize.go, List.length_cons]
    omega

theorem length_le_len (s : String) : s.length ≤ len s :=
  utf8ByteSize_go_ge s.data

/-! ## Theorems: `internal/pkg/library` -/

namespace library

/-- C8: `NormalizeLibraryRef s` is `t` when `t` holds a colon and `t` followed by `:latest`
otherwise, where `t` is `s` without one leading `library://` when `s` starts with it, and
`s` itself when it does not. -/
theorem NormalizeLibraryRef_spec (s : String) :
    ∃ t : String,
      (s = "library://" ++ t ∨ (¬ "library://".data <+: s.data ∧ t = s)) ∧
      (':' ∈ t.data → NormalizeLibraryRef s = t) ∧
      (':' ∉ t.data → NormalizeLibraryRef s = t ++ ":latest") := by
  refine ⟨strings.TrimPrefix s "library://", ?_, ?_, ?_⟩
  · by_cases h : "library://".data <+: s.data
    · exact Or.inl (strings.TrimPrefix_of_prefix s _ h)
    · exact Or.inr ⟨h, strings.TrimPrefix_of_not_prefix s _ h⟩
  · intro h
    have hc := (strings.Contains_colon _).2 h
    simp [NormalizeLibraryRef, hc]
  · intro h
    have hc : strings.Contains (strings.TrimPrefix s "library://") ":" = false := by
      rw [← Bool.not_eq_true, strings.Contains_colon]
      exact h
    simp only [NormalizeLibraryRef, hc, Bool.not_false, if_true, defaultTag]
    apply String.ext
    simp [String.data_append]

theorem SearchLibrary_short (n : Net) (value : String) (h : len value < 3) :
    SearchLibrary n value = ([], some (badQuery value)) := by
  simp [SearchLibrary, h]

theorem SearchLibrary_long (n : Net) (value : String) (h : 3 ≤ value.length) :
    SearchLibrary n value = describeOrSearch n value := by
  have hl : ¬ len value < 3 := by
    have := length_le_len value
    omega
  simp [SearchLibrary, hl]

/-- C9: the query `éé` has two characters, yet passes the length check of `SearchLibrary`
(its four bytes are counted): the library search is attempted and no error is returned. -/
theorem SearchLibrary_accepts_two_characters :
    "éé".length = 2 ∧ len "éé" = 4 ∧
      SearchLibrary emptyNet "éé" =
        ([.Search "éé",
          .Printf "No users found for \x27%s\x27\n\n" [.str "éé"],
          .Printf "No collections found for \x27%s\x27\n\n" [.str "éé"],
          .Printf "No containers found for \x27%s\x27\n\n" [.str "éé"]], none) := by
  refine ⟨by decide, by decide, ?_⟩
  decide

theorem NormalizeLibraryRef_eq (s : String) :
    NormalizeLibraryRef s =
      if ':' ∈ (strings.TrimPrefix s "library://").data then strings.TrimPrefix s "library://"
      else strings.TrimPrefix s "library://" ++ ":latest" := by
  by_cases h : ':' ∈ (strings.TrimPrefix s "library://").data
  · have hc := (strings.Contains_colon _).2 h
    simp [NormalizeLibraryRef, hc, h]
  · have hc : strings.Contains (strings.TrimPrefix s "library://") ":" = false := by
      rw [← Bool.not_eq_true, strings.Contains_colon]
      exact h
    simp only [NormalizeLibraryRef, hc, Bool.not_false, if_true, defaultTag, h, if_false]
    apply String.ext
    simp [String.data_append]

theorem NormalizeLibraryRef_fixed (t : String) (hp : ¬ "library://".data <+: t.data)
    (hc : ':' ∈ t.data) : NormalizeLibraryRef t = t := by
  rw [NormalizeLibraryRef_eq, strings.TrimPrefix_of_not_prefix t _ hp, if_pos hc]

theorem scheme_not_prefix_of_tagged (l : List Char) (h : ':' ∉ l) :
    ¬ "library://".data <+: l ++ ":latest".data := by
  intro hp
  have hP : "library://".data = ['l', 'i', 'b', 'r', 'a', 'r', 'y', ':', '/', '/'] := rfl
  have hL : ":latest".data = [':', 'l', 'a', 't', 'e', 's', 't'] := rfl
  rw [hP, hL] at hp
  rcases l with _ | ⟨c0, _ | ⟨c1, _ | ⟨c2, _ | ⟨c3, _ | ⟨c4, _ | ⟨c5, _ | ⟨c6, _ | ⟨c7, l⟩⟩⟩⟩⟩⟩⟩⟩ <;>
    simp [List.cons_prefix_cons] at hp h
  obtain ⟨-, -, -, -, -, -, -, h7, -⟩ := hp
  exact h.2.2.2.2.2.2.2.1 h7

theorem doubled_scheme_iff (s : String) :
    "library://library://".data <+: s.data ↔
      "library://".data <+: (strings.TrimPrefix s "library://").data := by
  have hd : "library://library://".data = "library://".data ++ "library://".data := rfl
  by_cases hs : "library://".data <+: s.data
  · have hsd := congrArg String.data (strings.TrimPrefix_of_prefix s _ hs)
    rw [String.data_append] at hsd
    rw [hd]
    conv_lhs => rw [hsd]
    exact List.prefix_append_right_inj _
  · rw [strings.TrimPrefix_of_not_prefix s _ hs]
    constructor
    · intro h
      exact absurd ((hd ▸ List.prefix_append _ _ : "library://".data <+: _).trans h) hs
    · intro h
      exact absurd h hs

/-- C11 fails as stated: normalising `library://library://alpine` strips one prefix and
keeps the rest, which holds a colon; normalising the result strips the second prefix and
appends the default tag. -/
theorem NormalizeLibraryRef_not_idempotent :
    NormalizeLibraryRef "library://library://alpine" = "library://alpine" ∧
      NormalizeLibraryRef (NormalizeLibraryRef "library://library://alpine") =
        "alpine:latest" ∧
      NormalizeLibraryRef (NormalizeLibraryRef "library://library://alpine") ≠
        NormalizeLibraryRef "library://library://alpine" := by
  decide

/-- C11, amended: normalising a normalised reference changes nothing exactly when the
reference does not start with the doubled prefix `library://library://`; for a reference
that does, the second normalisation strips the second prefix and gives a different
string. -/
theorem NormalizeLibraryRef_idempotent_iff (s : String) :
    NormalizeLibraryRef (NormalizeLibraryRef s) = NormalizeLibraryRef s ↔
      ¬ "library://library://".data <+: s.data := by
  rw [doubled_scheme_iff]
  generalize ht : strings.TrimPrefix s "library://" = t
  have hN := NormalizeLibraryRef_eq s
  rw [ht] at hN
  by_cases hp : "library://".data <+: t.data
  · simp only [hp, not_true_eq_false, iff_false]
    have hc : ':' ∈ t.data := hp.subset (by decide)
    rw [if_pos hc] at hN
    rw [hN]
    intro heq
    have hdec := congrArg String.data (strings.TrimPrefix_of_prefix t _ hp)
    rw [String.data_append] at hdec
    have hlen := congrArg (fun x : String => x.data.length) heq
    rw [NormalizeLibraryRef_eq] at hlen
    have hl := congrArg List.length hdec
    rw [List.length_append] at hl
    have h10 : "library://".data.length = 10 := rfl
    have hdata : ∀ x : String, x.length = x.data.length := fun _ => rfl
    split_ifs at hlen <;> simp [String.data_append] at hlen <;>
      rw [hdata, hdata] at hlen <;> omega
  · simp only [hp, not_false_eq_true, iff_true]
    rw [hN]
    by_cases hc : ':' ∈ t.data
    · rw [if_pos hc]
      exact NormalizeLibraryRef_fixed t hp hc
    · rw [if_neg hc]
      apply NormalizeLibraryRef_fixed
      · rw [String.data_append]
        exact scheme_not_prefix_of_tagged _ hc
      · simp [String.data_append]

end library

/-! ## Theorems: `strconv` -/

namespace strconv

theorem Atoi_empty : Atoi "" = .error "invalid syntax" := rfl

theorem Atoi_ne_empty (s : String) (v : Int) (h : Atoi s = .ok v) : s ≠ "" := by
  rintro rfl
  rw [Atoi_empty] at h
  cases h

end strconv

/-! ## Theorems: `src/pkg/build/assemblers` -/

namespace assemblers

theorem MatchString_iff (s : String) :
    MatchString s = true ↔ "singularity".data <:+: s.data :=
  strings.Contains_iff s "singularity"

theorem changeOwner_applies (w : World) (u g : Int)
    (hm : MatchString (w.Getenv "SUDO_COMMAND") = true) (hid : w.Getuid = 0)
    (huser : w.Getenv "SUDO_USER" ≠ "root")
    (hu : strconv.Atoi (w.Getenv "SUDO_UID") = .ok u)
    (hg : strconv.Atoi (w.Getenv "SUDO_GID") = .ok g) :
    changeOwner w = ([], (u, g, true)) := by
  have h1 := strconv.Atoi_ne_empty _ _ hu
  have h2 := strconv.Atoi_ne_empty _ _ hg
  simp [changeOwner, hm, hid, huser, hu, hg, h1, h2]

theorem changeOwner_cases (w : World) :
    (∃ u g, MatchString (w.Getenv "SUDO_COMMAND") = true ∧ w.Getuid = 0 ∧
        w.Getenv "SUDO_USER" ≠ "root" ∧
        strconv.Atoi (w.Getenv "SUDO_UID") = .ok u ∧
        strconv.Atoi (w.Getenv "SUDO_GID") = .ok g ∧
        changeOwner w = ([], (u, g, true))) ∨
      ((changeOwner w).2 = (0, 0, false) ∧
        (∀ a ∈ (changeOwner w).1, ∃ f l, a = Action.Errorf f l) ∧
        ¬ (MatchString (w.Getenv "SUDO_COMMAND") = true ∧ w.Getuid = 0 ∧
          w.Getenv "SUDO_USER" ≠ "root" ∧ w.Getenv "SUDO_UID" ≠ "" ∧
          w.Getenv "SUDO_GID" ≠ "" ∧
          (∃ u, strconv.Atoi (w.Getenv "SUDO_UID") = .ok u) ∧
          ∃ g, strconv.Atoi (w.Getenv "SUDO_GID") = .ok g)) := by
  by_cases hm : MatchString (w.Getenv "SUDO_COMMAND") = true
  swap
  · right
    simp [changeOwner, hm]
  by_cases hid : w.Getuid = 0
  swap
  · right
    simp [changeOwner, hm, hid]
  by_cases huser : w.Getenv "SUDO_USER" = "root"
  · right
    simp [changeOwner, hm, hid, huser]
  by_cases h1 : w.Getenv "SUDO_UID" = ""
  · right
    simp [changeOwner, hm, hid, huser, h1]
  by_cases h2 : w.Getenv "SUDO_GID" = ""
  · right
    simp [changeOwner, hm, hid, huser, h1, h2]
  cases hu : strconv.Atoi (w.Getenv "SUDO_UID") with
  | error e =>
    right
    simp [changeOwner, hm, hid, huser, h1, h2, hu]
  | ok u =>
    cases hg : strconv.Atoi (w.Getenv "SUDO_GID") with
    | error e =>
      right
      simp [changeOwner, hm, hid, huser, h1, h2, hu, hg]
    | ok g =>
      left
      exact ⟨u, g, hm, hid, huser, rfl, rfl, changeOwner_applies w u g hm hid huser hu hg⟩

/-- C5: `changeOwner` reports an adjustment exactly when `SUDO_COMMAND` contains
`singularity`, the current user id is 0, `SUDO_USER` is not `root`, and `SUDO_UID` and
`SUDO_GID` are both non-empty and both parse as integers; the ids it then returns are the
parsed ones, and in every other case it returns `(0, 0, false)`. -/
theorem changeOwner_adjusted_iff (w : World) :
    ((changeOwner w).2.2.2 = true ↔
      "singularity".data <:+: (w.Getenv "SUDO_COMMAND").data ∧ w.Getuid = 0 ∧
        w.Getenv "SUDO_USER" ≠ "root" ∧ w.Getenv "SUDO_UID" ≠ "" ∧
        w.Getenv "SUDO_GID" ≠ "" ∧
        (∃ u, strconv.Atoi (w.Getenv "SUDO_UID") = .ok u) ∧
        ∃ g, strconv.Atoi (w.Getenv "SUDO_GID") = .ok g) ∧
    ((changeOwner w).2.2.2 = true →
      strconv.Atoi (w.Getenv "SUDO_UID") = .ok (changeOwner w).2.1 ∧
        strconv.Atoi (w.Getenv "SUDO_GID") = .ok (changeOwner w).2.2.1) ∧
    ((changeOwner w).2.2.2 = false → (changeOwner w).2 = (0, 0, false)) := by
  rw [← MatchString_iff]
  rcases changeOwner_cases w with ⟨u, g, hm, hid, huser, hu, hg, h⟩ | ⟨h, -, hn⟩
  · refine ⟨?_, ?_, ?_⟩
    · rw [h]
      simp only [true_iff]
      exact ⟨hm, hid, huser, strconv.Atoi_ne_empty _ _ hu, strconv.Atoi_ne_empty _ _ hg,
        ⟨u, hu⟩, ⟨g, hg⟩⟩
    · intro _
      rw [h]
      exact ⟨hu, hg⟩
    · rw [h]
      simp
  · refine ⟨?_, ?_, ?_⟩
    · rw [h]
      simp only [Bool.false_eq_true, false_iff]
      exact hn
    · rw [h]
      simp
    · intro _
      exact h

theorem changeOwner_logs (w : World) :
    ∀ a ∈ (changeOwner w).1, ∃ f l, a = Action.Errorf f l := by
  rcases changeOwner_cases w with ⟨u, g, -, -, -, -, -, h⟩ | ⟨-, h, -⟩
  · rw [h]
    simp
  · exact h

theorem containersCreated_append (l₁ l₂ : List Action) :
    containersCreated (l₁ ++ l₂) = containersCreated l₁ ++ containersCreated l₂ := by
  induction l₁ with
  | nil => rfl
  | cons a t ih => cases a <;> simp [containersCreated, ih]

theorem commandsRun_append (l₁ l₂ : List Action) :
    commandsRun (l₁ ++ l₂) = commandsRun l₁ ++ commandsRun l₂ := by
  induction l₁ with
  | nil => rfl
  | cons a t ih => cases a <;> simp [commandsRun, ih]

theorem ownersSet_append (l₁ l₂ : List Action) :
    ownersSet (l₁ ++ l₂) = ownersSet l₁ ++ ownersSet l₂ := by
  induction l₁ with
  | nil => rfl
  | cons a t ih => cases a <;> simp [ownersSet, ih]

theorem containersCreated_logs (l : List Action)
    (h : ∀ a ∈ l, ∃ f args, a = Action.Errorf f args) : containersCreated l = [] := by
  induction l with
  | nil => rfl
  | cons a t ih =>
    obtain ⟨f, args, rfl⟩ := h _ (List.mem_cons_self _ _)
    simpa [containersCreated] using ih (fun b hb => h b (List.mem_cons_of_mem _ hb))

theorem commandsRun_logs (l : List Action)
    (h : ∀ a ∈ l, ∃ f args, a = Action.Errorf f args) : commandsRun l = [] := by
  induction l with
  | nil => rfl
  | cons a t ih =>
    obtain ⟨f, args, rfl⟩ := h _ (List.mem_cons_self _ _)
    simpa [commandsRun] using ih (fun b hb => h b (List.mem_cons_of_mem _ hb))

theorem ownersSet_logs (l : List Action)
    (h : ∀ a ∈ l, ∃ f args, a = Action.Errorf f args) : ownersSet l = [] := by
  induction l with
  | nil => rfl
  | cons a t ih =>
    obtain ⟨f, args, rfl⟩ := h _ (List.mem_cons_self _ _)
    simpa [ownersSet] using ih (fun b hb => h b (List.mem_cons_of_mem _ hb))

theorem commandsRun_createSIF (w : World) (path : String) (definition : Bytes)
    (squashfile : String) : commandsRun (createSIF w path definition squashfile).1 = [] := by
  have hlog := commandsRun_logs _ (changeOwner_logs w)
  unfold createSIF
  simp only []
  split
  · rfl
  · split
    · rfl
    · split
      · rfl
      · split
        · rfl
        · simp only [commandsRun_append, hlog]
          split <;> rfl

/-- C1: when the partition file opens and its size is `n`, the container `createSIF` hands
to the container writer carries exactly two descriptors, in this order: the definition
descriptor (definition-file, default group, unused link, the recipe inline, its byte length
as size) and the partition descriptor (partition, default group, unused link, the partition
file as source, size `n`, and the metadata the sif library serialises for squashfs, primary
system and the architecture code of `GOARCH`).  It is handed over once; when the library
rejects the architecture, nothing is handed over. -/
theorem createSIF_descriptors (w : World) (path : String) (definition : Bytes)
    (squashfile : String) (n : Int) (hopen : w.Open squashfile = none)
    (hstat : w.Stat squashfile = .ok n) :
    (∀ extra,
      w.sif.SetPartExtra .FsSquash .PartPrimSys (w.sif.GetSIFArch w.GOARCH) = .ok extra →
      containersCreated (createSIF w path definition squashfile).1 =
        [{ Pathname := path
           Launchstr := w.sif.HdrLaunch
           Sifversion := w.sif.HdrVersion
           ID := w.NewV4
           InputDescr :=
            [{ Datatype := .DataDeffile
               Groupid := w.sif.DescrDefaultGroup
               Link := w.sif.DescrUnusedLink
               Size := (definition.length : Int)
               Fname := ""
               Fp := none
               Data := definition
               Extra := [] },
             { Datatype := .DataPartition
               Groupid := w.sif.DescrDefaultGroup
               Link := w.sif.DescrUnusedLink
               Size := n
               Fname := squashfile
               Fp := some ⟨squashfile⟩
               Data := []
               Extra := extra }] }]) ∧
    (∀ err,
      w.sif.SetPartExtra .FsSquash .PartPrimSys (w.sif.GetSIFArch w.GOARCH) = .error err →
      containersCreated (createSIF w path definition squashfile).1 = []) := by
  have hlog := containersCreated_logs _ (changeOwner_logs w)
  constructor
  · intro extra hextra
    unfold createSIF
    simp only [hopen, hstat, hextra, definput, List.nil_append, List.singleton_append]
    split
    · rfl
    · simp only [containersCreated_append, hlog]
      split <;> rfl
  · intro err herr
    unfold createSIF
    simp only [hopen, hstat, herr]
    rfl

/-- Witness for C1 on the build host: an empty recipe gives a definition descriptor of size
0 next to the partition descriptor of the 4096-byte payload. -/
theorem createSIF_descriptors_witness :
    containersCreated (createSIF buildHost "out.sif" [] "/tmp/sq.img").1 =
      [{ Pathname := "out.sif"
         Launchstr := "#!/usr/bin/env run-singularity\n"
         Sifversion := "01"
         ID := 42
         InputDescr :=
          [{ Datatype := .DataDeffile, Groupid := 0xf0000001, Link := 0, Size := 0, Fname := "",
             Fp := none, Data := [], Extra := [] },
           { Datatype := .DataPartition, Groupid := 0xf0000001, Link := 0, Size := 4096,
             Fname := "/tmp/sq.img", Fp := some ⟨"/tmp/sq.img"⟩, Data := [],
             Extra := [1, 2, 2] }] }] :=
  (createSIF_descriptors buildHost "out.sif" [] "/tmp/sq.img" 4096 rfl rfl).1 [1, 2, 2] rfl

/-- C2 fails as stated: with `mksquashfs` missing and the output path equal to the bundle
directory, `Assemble` still runs its deferred `os.RemoveAll(b.Path)`, which removes what
is at the output path. -/
theorem Assemble_lookup_failure_removes_bundle_path :
    noToolHost.LookPath "mksquashfs" = .error "executable file not found in $PATH" ∧
      sampleBundle.Path = "/tmp/sbuild-1" ∧
      Assemble noToolHost sampleBundle "/tmp/sbuild-1" =
        ([.Infof "Creating SIF file..." [], .LookPath "mksquashfs",
          .Errorf "mksquashfs is not installed on this system" [],
          .RemoveAll "/tmp/sbuild-1"],
          .returned (some "executable file not found in $PATH")) ∧
      Action.RemoveAll "/tmp/sbuild-1" ∈ (Assemble noToolHost sampleBundle "/tmp/sbuild-1").1 :=
  ⟨rfl, rfl, by decide, by decide⟩

/-- C2, amended: when the packing stage fails, `Assemble` returns that error and never
reaches `createSIF`.  With `mksquashfs` missing it only logs, looks the tool up and removes
the bundle directory; when the tool runs and fails it has, besides, created and removed the
temporary file, removed the payload path before and after the run, and run the tool.  No
other operation is performed, so the output path is never an operand unless it is the
bundle directory, the temporary file or the payload path. -/
theorem Assemble_packing_failure (w : World) (b : Bundle) (path : String) :
    (∀ err, w.LookPath "mksquashfs" = .error err →
      Assemble w b path =
        ([.Infof "Creating SIF file..." [], .LookPath "mksquashfs",
          .Errorf "mksquashfs is not installed on this system" [], .RemoveAll b.Path],
          .returned (some err))) ∧
    (∀ mksquashfs fname err, w.LookPath "mksquashfs" = .ok mksquashfs →
      w.TempFile b.Path "squashfs-" = .ok fname →
      w.Run mksquashfs (mksquashfsArgs w b (fname ++ ".img")) = some err →
      Assemble w b path =
        ([.Infof "Creating SIF file..." [], .LookPath "mksquashfs",
          .TempFile b.Path "squashfs-", .Close fname, .Remove fname,
          .Remove (fname ++ ".img"),
          .Run mksquashfs (mksquashfsArgs w b (fname ++ ".img")),
          .Remove (fname ++ ".img"), .RemoveAll b.Path],
          .returned (some err))) := by
  constructor
  · intro err h
    simp [Assemble, h]
  · intro mksquashfs fname err hl ht hr
    simp [Assemble, hl, ht, hr]

/-- Witness for C2 (amended) on the hosts without the tool and with a failing tool; the
output path lies outside the bundle directory and is no operand of any operation. -/
theorem Assemble_packing_failure_witness :
    Assemble noToolHost sampleBundle "/home/alice/out.sif" =
        ([.Infof "Creating SIF file..." [], .LookPath "mksquashfs",
          .Errorf "mksquashfs is not installed on this system" [],
          .RemoveAll "/tmp/sbuild-1"],
          .returned (some "executable file not found in $PATH")) ∧
      Assemble failingToolHost sampleBundle "/home/alice/out.sif" =
        ([.Infof "Creating SIF file..." [], .LookPath "mksquashfs",
          .TempFile "/tmp/sbuild-1" "squashfs-", .Close "/tmp/sbuild-1/squashfs-123456",
          .Remove "/tmp/sbuild-1/squashfs-123456",
          .Remove "/tmp/sbuild-1/squashfs-123456.img",
          .Run "/usr/bin/mksquashfs"
            ["/tmp/sbuild-1/fs", "/tmp/sbuild-1/squashfs-123456.img", "-noappend"],
          .Remove "/tmp/sbuild-1/squashfs-123456.img", .RemoveAll "/tmp/sbuild-1"],
          .returned (some "exit status 1")) :=
  ⟨(Assemble_packing_failure noToolHost sampleBundle "/home/alice/out.sif").1 _ rfl,
    (Assemble_packing_failure failingToolHost sampleBundle "/home/alice/out.sif").2
      "/usr/bin/mksquashfs" "/tmp/sbuild-1/squashfs-123456" "exit status 1" rfl rfl rfl⟩

/-- C3: when the partition file cannot be opened, or cannot be inspected once opened,
`createSIF` returns an error after opening (and inspecting and closing) that file only:
nothing is removed at the output path, the container writer is not called and no ownership
is changed, so no file is removed, created or modified. -/
theorem createSIF_partition_unavailable (w : World) (path : String) (definition : Bytes)
    (squashfile : String)
    (h : (∃ err, w.Open squashfile = some err) ∨ (∃ err, w.Stat squashfile = .error err)) :
    (∃ err, (createSIF w path definition squashfile).2 = some err) ∧
      ((createSIF w path definition squashfile).1 = [.Open squashfile] ∨
        (createSIF w path definition squashfile).1 =
          [.Open squashfile, .Stat squashfile, .Close squashfile]) ∧
      (∀ a ∈ (createSIF w path definition squashfile).1,
        a.mutates = false ∧ a ≠ .RemoveAll path ∧ (∀ cinfo, a ≠ .CreateContainer cinfo) ∧
          ∀ name uid gid, a ≠ .Chown name uid gid) := by
  have key : (∃ err, (createSIF w path definition squashfile).2 = some err) ∧
      ((createSIF w path definition squashfile).1 = [.Open squashfile] ∨
        (createSIF w path definition squashfile).1 =
          [.Open squashfile, .Stat squashfile, .Close squashfile]) := by
    cases hopen : w.Open squashfile with
    | some err => simp [createSIF, hopen]
    | none =>
      rcases h with ⟨err, h⟩ | ⟨err, h⟩
      · rw [hopen] at h
        cases h
      · simp [createSIF, hopen, h]
  refine ⟨key.1, key.2, ?_⟩
  intro a ha
  rcases key.2 with ht | ht <;> rw [ht] at ha <;> simp at ha
  · subst ha
    simp [Action.mutates]
  · rcases ha with rfl | rfl | rfl <;> simp [Action.mutates]

/-- Witness for C3 on the hosts whose partition file cannot be opened, and cannot be
inspected once opened: an error is returned and no action of the trace changes a file. -/
theorem createSIF_partition_unavailable_witness :
    ((∃ err, (createSIF unreadableHost "out.sif" [66, 10] "/tmp/sq.img").2 = some err) ∧
      ∀ a ∈ (createSIF unreadableHost "out.sif" [66, 10] "/tmp/sq.img").1,
        a.mutates = false) ∧
    ((∃ err, (createSIF unstatableHost "out.sif" [66, 10] "/tmp/sq.img").2 = some err) ∧
      ∀ a ∈ (createSIF unstatableHost "out.sif" [66, 10] "/tmp/sq.img").1,
        a.mutates = false) :=
  have h₁ := createSIF_partition_unavailable unreadableHost "out.sif" [66, 10] "/tmp/sq.img"
    (Or.inl ⟨"permission denied", rfl⟩)
  have h₂ := createSIF_partition_unavailable unstatableHost "out.sif" [66, 10] "/tmp/sq.img"
    (Or.inr ⟨"input/output error", rfl⟩)
  ⟨⟨h₁.1, fun a ha => (h₁.2.2 a ha).1⟩, ⟨h₂.1, fun a ha => (h₂.2.2 a ha).1⟩⟩

/-- C4: once the tool is found and the temporary file `fname` is allocated, `Assemble` runs
the tool exactly once, with the arguments `[r, p, "-noappend"]` when the user id is 0 and
`[r, p, "-noappend", "-all-root"]` otherwise, where `r` is the staged root and `p` the
payload path `fname ++ ".img"`: the flag `-all-root` is the fourth and last argument exactly
when the user is not the superuser. -/
theorem Assemble_mksquashfs_args (w : World) (b : Bundle) (path : String)
    (mksquashfs fname : String) (hl : w.LookPath "mksquashfs" = .ok mksquashfs)
    (ht : w.TempFile b.Path "squashfs-" = .ok fname) :
    (w.Getuid = 0 →
      commandsRun (Assemble w b path).1 =
        [(mksquashfs, [b.Rootfs, fname ++ ".img", "-noappend"])]) ∧
    (w.Getuid ≠ 0 →
      commandsRun (Assemble w b path).1 =
        [(mksquashfs, [b.Rootfs, fname ++ ".img", "-noappend", "-all-root"])]) ∧
    (∃ args, commandsRun (Assemble w b path).1 = [(mksquashfs, args)] ∧
      (args.get? 3 = some "-all-root" ↔ w.Getuid ≠ 0) ∧
      (w.Getuid ≠ 0 → args.getLast? = some "-all-root")) := by
  have hrun : commandsRun (Assemble w b path).1 =
      [(mksquashfs, mksquashfsArgs w b (fname ++ ".img"))] := by
    unfold Assemble
    simp only [hl, ht]
    split
    · rfl
    · simp [commandsRun_append, commandsRun_createSIF, commandsRun]
  refine ⟨?_, ?_, ?_⟩
  · intro h0
    rw [hrun]
    simp [mksquashfsArgs, h0]
  · intro h0
    rw [hrun]
    simp [mksquashfsArgs, h0]
  · refine ⟨_, hrun, ?_, ?_⟩
    · by_cases h0 : w.Getuid = 0 <;> simp [mksquashfsArgs, h0]
    · intro h0
      simp [mksquashfsArgs, h0]

/-- Witness for C4: the superuser build passes three arguments, the build of user 1000
passes `-all-root` as the fourth. -/
theorem Assemble_mksquashfs_args_witness :
    commandsRun (Assemble buildHost sampleBundle "out.sif").1 =
        [("/usr/bin/mksquashfs",
          ["/tmp/sbuild-1/fs", "/tmp/sbuild-1/squashfs-123456.img", "-noappend"])] ∧
      commandsRun (Assemble userHost sampleBundle "out.sif").1 =
        [("/usr/bin/mksquashfs",
          ["/tmp/sbuild-1/fs", "/tmp/sbuild-1/squashfs-123456.img", "-noappend",
            "-all-root"])] :=
  ⟨(Assemble_mksquashfs_args buildHost sampleBundle "out.sif" "/usr/bin/mksquashfs"
      "/tmp/sbuild-1/squashfs-123456" rfl rfl).1 rfl,
    (Assemble_mksquashfs_args userHost sampleBundle "out.sif" "/usr/bin/mksquashfs"
      "/tmp/sbuild-1/squashfs-123456" rfl rfl).2.1 (by decide)⟩

/-- C6 fails as stated: `root` starting the build through `sudo` gives an environment whose
`SUDO_COMMAND` references singularity, with user id 0 and parseable `SUDO_UID` and
`SUDO_GID`, yet `changeOwner` reports no adjustment and `createSIF`, though it succeeds,
changes no ownership. -/
theorem changeOwner_root_sudo_not_adjusted :
    MatchString (rootSudoHost.Getenv "SUDO_COMMAND") = true ∧ rootSudoHost.Getuid = 0 ∧
      strconv.Atoi (rootSudoHost.Getenv "SUDO_UID") = .ok 0 ∧
      strconv.Atoi (rootSudoHost.Getenv "SUDO_GID") = .ok 0 ∧
      changeOwner rootSudoHost = ([], (0, 0, false)) ∧
      (createSIF rootSudoHost "out.sif" [66, 10] "/tmp/sq.img").2 = none ∧
      ownersSet (createSIF rootSudoHost "out.sif" [66, 10] "/tmp/sq.img").1 = [] :=
  ⟨by decide, by decide, rfl, rfl, by decide, by decide, by decide⟩

/-- C6, amended: when `SUDO_COMMAND` references singularity, the user id is 0, `SUDO_USER`
is not `root`, and `SUDO_UID` and `SUDO_GID` parse as the integers `u` and `g`,
`changeOwner` returns `(u, g, true)`, and every successful `createSIF`, right after the
container is written, changes the owner of the output path to `u` and `g`, and changes no
other ownership. -/
theorem createSIF_chowns_to_hinted_ids (w : World) (u g : Int)
    (hm : "singularity".data <:+: (w.Getenv "SUDO_COMMAND").data) (hid : w.Getuid = 0)
    (huser : w.Getenv "SUDO_USER" ≠ "root")
    (hu : strconv.Atoi (w.Getenv "SUDO_UID") = .ok u)
    (hg : strconv.Atoi (w.Getenv "SUDO_GID") = .ok g) :
    (changeOwner w).2 = (u, g, true) ∧
      ∀ path definition squashfile, (createSIF w path definition squashfile).2 = none →
        (∃ cinfo, (createSIF w path definition squashfile).1 =
          [.Open squashfile, .Stat squashfile, .RemoveAll path, .CreateContainer cinfo,
            .Chown path u g, .Close squashfile]) ∧
        ownersSet (createSIF w path definition squashfile).1 = [(path, u, g)] := by
  have hc := changeOwner_applies w u g ((MatchString_iff _).2 hm) hid huser hu hg
  refine ⟨by rw [hc], ?_⟩
  intro path definition squashfile hnil
  have key : ∃ cinfo, (createSIF w path definition squashfile).1 =
      [.Open squashfile, .Stat squashfile, .RemoveAll path, .CreateContainer cinfo,
        .Chown path u g, .Close squashfile] := by
    revert hnil
    unfold createSIF
    simp only []
    split
    · simp
    · split
      · simp
      · split
        · simp
        · split
          · simp
          · intro _
            simp [hc]
  obtain ⟨cinfo, hk⟩ := key
  exact ⟨⟨cinfo, hk⟩, by rw [hk]; rfl⟩

/-- Witness for C6 (amended) on the build host, where `alice` (1000:1000) runs the build
through `sudo`. -/
theorem createSIF_chowns_to_hinted_ids_witness :
    (changeOwner buildHost).2 = (1000, 1000, true) ∧
      ownersSet (createSIF buildHost "out.sif" [66, 10] "/tmp/sq.img").1 =
        [("out.sif", 1000, 1000)] :=
  have h := createSIF_chowns_to_hinted_ids buildHost 1000 1000
    ((MatchString_iff _).1 (by decide)) rfl (by decide) rfl rfl
  ⟨h.1, (h.2 "out.sif" [66, 10] "/tmp/sq.img" (by decide)).2⟩

/-- C10: when the tool is found but the temporary file cannot be created, `Assemble` does
not return: `f` is nil, `f.Name()` dereferences it and the call panics, after the tool
lookup and the attempt to create the file, with only the deferred removal of the bundle
directory still run. -/
theorem Assemble_panics_without_temp_file (w : World) (b : Bundle) (path : String)
    (mksquashfs err : String) (hl : w.LookPath "mksquashfs" = .ok mksquashfs)
    (ht : w.TempFile b.Path "squashfs-" = .error err) :
    Assemble w b path =
      ([.Infof "Creating SIF file..." [], .LookPath "mksquashfs",
        .TempFile b.Path "squashfs-", .RemoveAll b.Path],
        .panicked "invalid memory address or nil pointer dereference") ∧
      ∀ e, (Assemble w b path).2 ≠ .returned e := by
  have h : Assemble w b path =
      ([.Infof "Creating SIF file..." [], .LookPath "mksquashfs",
        .TempFile b.Path "squashfs-", .RemoveAll b.Path],
        .panicked "invalid memory address or nil pointer dereference") := by
    simp [Assemble, hl, ht]
  refine ⟨h, ?_⟩
  intro e
  rw [h]
  simp

/-- Witness for C10 on the host whose bundle directory admits no new file. -/
theorem Assemble_panics_without_temp_file_witness :
    (Assemble noTempHost sampleBundle "out.sif").2 =
      .panicked "invalid memory address or nil pointer dereference" :=
  congrArg Prod.snd
    (Assemble_panics_without_temp_file noTempHost sampleBundle "out.sif"
      "/usr/bin/mksquashfs" "no such file or directory" rfl rfl).1

end assemblers

/-! ## Theorems: `pkg/image` -/

namespace image

/-- C7: for every requested mode, `squashfsFormat.openMode` answers `os.O_RDONLY`: a
writable request is downgraded to read-only, never rejected, and the test
`TestSFSOpenMode` passes. -/
theorem openMode_always_read_only (writable : Bool) :
    squashfsFormat.openMode writable = O_RDONLY ∧
      squashfsFormat.openMode true = squashfsFormat.openMode false ∧
      squashfsFormat.openMode writable ≠ O_RDWR ∧
      TestSFSOpenMode = none := by
  refine ⟨rfl, rfl, ?_, by decide⟩
  simp [squashfsFormat.openMode, O_RDONLY, O_RDWR]

end image

end Singularity
